import Mathlib

/-!
Verification of the deployment pipeline in tools/cache_buster.py.

The script validates JSON files in two packs, bumps manifest patch
versions, rotates UUIDs, rewrites the resource pack dependency entry,
deploys both packs, regenerates world pack registration files, clears
the Windows cache, and coordinates with a possibly running
bedrock_server.exe process through an interactive prompt.

The embedding below models JSON values as an inductive type, fallible
Python operations as Except values, the UUID generator as an injective
token supply indexed by a counter, and the interactive server lifecycle
plus the main pipeline as pure functions producing an event trace and a
run result.
-/

set_option maxHeartbeats 1000000

/-- Model of a parsed JSON value. Manifest numbers are integers, which is
the only numeric shape the script manipulates arithmetically. Objects are
ordered key-value lists, mirroring Python dict insertion order. -/
inductive Json where
  | null : Json
  | bool (b : Bool) : Json
  | num (n : Int) : Json
  | str (s : String) : Json
  | arr (items : List Json) : Json
  | obj (fields : List (String × Json)) : Json

/-- Python dict lookup on an ordered field list: first binding wins. -/
def lookupField : List (String × Json) → String → Option Json
  | [], _ => none
  | (k1, v) :: fs, k => if k1 = k then some v else lookupField fs k

/-- Python dict assignment: replace the first binding of the key in place,
or append a fresh binding when the key is absent. -/
def setField : List (String × Json) → String → Json → List (String × Json)
  | [], k, v => [(k, v)]
  | (k1, v1) :: fs, k, v => if k1 = k then (k, v) :: fs else (k1, v1) :: setField fs k v

/-- Positional list read, mirroring a Python index read that may be out of range. -/
def nth {α : Type} : List α → Nat → Option α
  | [], _ => none
  | x :: _, 0 => some x
  | _ :: xs, n + 1 => nth xs n

/-- Positional list write; only reached by the script on indices that were
just read successfully, so the out-of-range case is irrelevant. -/
def setNth {α : Type} : List α → Nat → α → List α
  | [], _, _ => []
  | _ :: xs, 0, v => v :: xs
  | x :: xs, n + 1, v => x :: setNth xs n v

/-- Sequencing of a fallible body over a list, mirroring a Python for loop
whose body may raise. -/
def mapExcept {α β : Type} (f : α → Except String β) : List α → Except String (List β)
  | [] => Except.ok []
  | x :: xs =>
    match f x with
    | Except.error e => Except.error e
    | Except.ok y =>
      match mapExcept f xs with
      | Except.error e => Except.error e
      | Except.ok ys => Except.ok (y :: ys)

theorem lookupField_setField_self (fs : List (String × Json)) (k : String) (v : Json) :
    lookupField (setField fs k v) k = some v := by
  induction fs with
  | nil => simp [setField, lookupField]
  | cons p fs ih =>
    obtain ⟨k1, v1⟩ := p
    by_cases h : k1 = k
    · simp [setField, h, lookupField]
    · simp [setField, h, lookupField, ih]

theorem lookupField_setField_ne (fs : List (String × Json)) (k k1 : String) (v : Json)
    (h : k1 ≠ k) : lookupField (setField fs k v) k1 = lookupField fs k1 := by
  induction fs with
  | nil => simp [setField, lookupField, Ne.symm h]
  | cons p fs ih =>
    obtain ⟨k2, v2⟩ := p
    by_cases h2 : k2 = k
    · subst h2
      simp [setField, lookupField, Ne.symm h]
    · simp [setField, h2, lookupField, ih]

theorem setField_self_of_lookup (fs : List (String × Json)) (k : String) (v : Json)
    (h : lookupField fs k = some v) : setField fs k v = fs := by
  induction fs with
  | nil => simp [lookupField] at h
  | cons p fs ih =>
    obtain ⟨k1, v1⟩ := p
    by_cases h1 : k1 = k
    · subst h1
      simp [lookupField] at h
      simp [setField, h]
    · simp [lookupField, h1] at h
      simp [setField, h1, ih h]

theorem nth_lt {α : Type} (l : List α) (i : Nat) (h : i < l.length) :
    ∃ x, nth l i = some x := by
  induction l generalizing i with
  | nil => simp at h
  | cons x xs ih =>
    cases i with
    | zero => exact ⟨x, rfl⟩
    | succ j => exact ih j (Nat.lt_of_succ_lt_succ h)

theorem nth_none_of_le {α : Type} (l : List α) (i : Nat) (h : l.length ≤ i) :
    nth l i = none := by
  induction l generalizing i with
  | nil => rfl
  | cons x xs ih =>
    cases i with
    | zero => simp at h
    | succ j => exact ih j (Nat.le_of_succ_le_succ h)

theorem nth_setNth_self {α : Type} (l : List α) (i : Nat) (v x : α)
    (h : nth l i = some x) : nth (setNth l i v) i = some v := by
  induction l generalizing i with
  | nil => simp [nth] at h
  | cons y ys ih =>
    cases i with
    | zero => rfl
    | succ j => exact ih j h

theorem nth_setNth_ne {α : Type} (l : List α) (i j : Nat) (v : α) (h : j ≠ i) :
    nth (setNth l i v) j = nth l j := by
  induction l generalizing i j with
  | nil => rfl
  | cons y ys ih =>
    cases i with
    | zero =>
      cases j with
      | zero => exact absurd rfl h
      | succ j1 => rfl
    | succ i1 =>
      cases j with
      | zero => rfl
      | succ j1 => exact ih i1 j1 (fun he => h (by rw [he]))

theorem mapExcept_ok_length {α β : Type} (f : α → Except String β) (l : List α)
    (l1 : List β) (h : mapExcept f l = Except.ok l1) : l1.length = l.length := by
  induction l generalizing l1 with
  | nil =>
    simp [mapExcept] at h
    simp [← h]
  | cons x xs ih =>
    unfold mapExcept at h
    cases hx : f x with
    | error e => rw [hx] at h; exact absurd h (by simp)
    | ok y =>
      rw [hx] at h
      cases hxs : mapExcept f xs with
      | error e => rw [hxs] at h; exact absurd h (by simp)
      | ok ys =>
        rw [hxs] at h
        simp at h
        subst h
        simp [ih ys hxs]

theorem mapExcept_ok_nth {α β : Type} (f : α → Except String β) (l : List α)
    (l1 : List β) (h : mapExcept f l = Except.ok l1) (i : Nat) (x : α)
    (hx : nth l i = some x) : ∃ y, nth l1 i = some y ∧ f x = Except.ok y := by
  induction l generalizing l1 i with
  | nil => simp [nth] at hx
  | cons a xs ih =>
    unfold mapExcept at h
    cases ha : f a with
    | error e => rw [ha] at h; exact absurd h (by simp)
    | ok y =>
      rw [ha] at h
      cases hxs : mapExcept f xs with
      | error e => rw [hxs] at h; exact absurd h (by simp)
      | ok ys =>
        rw [hxs] at h
        simp at h
        subst h
        cases i with
        | zero =>
          simp [nth] at hx
          subst hx
          exact ⟨y, rfl, ha⟩
        | succ j => exact ih ys hxs j hx

theorem mapExcept_ok_mem {α β : Type} (f : α → Except String β) (l : List α)
    (l1 : List β) (h : mapExcept f l = Except.ok l1) (y : β) (hy : y ∈ l1) :
    ∃ x ∈ l, f x = Except.ok y := by
  induction l generalizing l1 with
  | nil =>
    simp [mapExcept] at h
    subst h
    simp at hy
  | cons a xs ih =>
    unfold mapExcept at h
    cases ha : f a with
    | error e => rw [ha] at h; exact absurd h (by simp)
    | ok z =>
      rw [ha] at h
      cases hxs : mapExcept f xs with
      | error e => rw [hxs] at h; exact absurd h (by simp)
      | ok ys =>
        rw [hxs] at h
        simp at h
        subst h
        rcases List.mem_cons.mp hy with h1 | h1
        · exact ⟨a, List.mem_cons_self a xs, h1 ▸ ha⟩
        · obtain ⟨x, hx1, hx2⟩ := ih ys hxs h1
          exact ⟨x, List.mem_cons_of_mem a hx1, hx2⟩

theorem mapExcept_ok_id {α : Type} (f : α → Except String α) (l : List α)
    (h : ∀ x ∈ l, f x = Except.ok x) : mapExcept f l = Except.ok l := by
  induction l with
  | nil => rfl
  | cons a xs ih =>
    unfold mapExcept
    rw [h a (List.mem_cons_self a xs), ih (fun x hx => h x (List.mem_cons_of_mem a hx))]

/-- Embedding of validate_json: a file passes validation exactly when the
JSON parser produced a value for it. The parse outcome of a file is the
input; the validator performs no other check. -/
def validate_json (parseResult : Option Json) : Bool := parseResult.isSome

/-- Verdict of step 1 of main over the parse outcomes of every JSON file
found in both packs. -/
def allValid (files : List (Option Json)) : Bool := files.all validate_json

/-- Embedding of the statement version[2] += 1 on a version value that was
just read as a list: reading index 2 may hit IndexError, and a non-integer
element makes the increment a TypeError. -/
def bumpVerList (vs : List Json) : Except String (List Json) :=
  match nth vs 2 with
  | some (Json.num n) => Except.ok (setNth vs 2 (Json.num (n + 1)))
  | some _ => Except.error "TypeError"
  | none => Except.error "IndexError"

/-- Embedding of the loop body of bump_version for one module:
module[version][2] += 1, raising when the module is not a dict, has no
version key, or the version is not a list of the right shape. -/
def bumpMod (m : Json) : Except String Json :=
  match m with
  | Json.obj fs =>
    match lookupField fs "version" with
    | some (Json.arr vs) =>
      match bumpVerList vs with
      | Except.error e => Except.error e
      | Except.ok vs1 => Except.ok (Json.obj (setField fs "version" (Json.arr vs1)))
    | some _ => Except.error "TypeError"
    | none => Except.error "KeyError"
  | _ => Except.error "TypeError"

/-- Embedding of the module loop of bump_version over manifest.get(modules, []).
An absent key skips the loop; a list is iterated; an empty string or empty
dict iterates zero times and leaves the manifest untouched; any other value
raises once the loop body runs (or because it is not iterable). -/
def bumpModules (fs1 : List (String × Json)) (modsVal : Option Json) :
    Except String (List (String × Json)) :=
  match modsVal with
  | none => Except.ok fs1
  | some (Json.arr ms) =>
    match mapExcept bumpMod ms with
    | Except.error e => Except.error e
    | Except.ok ms1 => Except.ok (setField fs1 "modules" (Json.arr ms1))
  | some (Json.str t) => if t.isEmpty then Except.ok fs1 else Except.error "TypeError"
  | some (Json.obj mfs) => if mfs.isEmpty then Except.ok fs1 else Except.error "TypeError"
  | some _ => Except.error "TypeError"

/-- Embedding of bump_version: bump the header patch version, bump every
module patch version, and return the written-back manifest together with
the returned header version list. Any raise leaves the file unwritten, so
an error here means the manifest on disk is unchanged. -/
def bump_version (m : Json) : Except String (Json × Json) :=
  match m with
  | Json.obj fs =>
    match lookupField fs "header" with
    | some (Json.obj hfs) =>
      match lookupField hfs "version" with
      | some (Json.arr vs) =>
        match bumpVerList vs with
        | Except.error e => Except.error e
        | Except.ok vs1 =>
          match bumpModules (setField fs "header" (Json.obj (setField hfs "version" (Json.arr vs1)))) (lookupField fs "modules") with
          | Except.error e => Except.error e
          | Except.ok fs2 => Except.ok (Json.obj fs2, Json.arr vs1)
      | some _ => Except.error "TypeError"
      | none => Except.error "KeyError"
    | some _ => Except.error "TypeError"
    | none => Except.error "KeyError"
  | _ => Except.error "TypeError"

/-- Reader for manifest[header][k] used to state properties of manifests. -/
def headerField (m : Json) (k : String) : Option Json :=
  match m with
  | Json.obj fs =>
    match lookupField fs "header" with
    | some (Json.obj hfs) => lookupField hfs k
    | _ => none
  | _ => none

/-- Header identity token of a manifest. -/
def headerUuid (m : Json) : Option Json := headerField m "uuid"

/-- Header version triple of a manifest. -/
def headerVersion (m : Json) : Option Json := headerField m "version"

/-- Modules list of a manifest; anything other than a list reads as empty,
matching how the script only ever mutates a genuine list of modules. -/
def modulesOf (m : Json) : List Json :=
  match m with
  | Json.obj fs =>
    match lookupField fs "modules" with
    | some (Json.arr ms) => ms
    | _ => []
  | _ => []

/-- Dependencies list of a manifest, in the same reading as modulesOf. -/
def depsOf (m : Json) : List Json :=
  match m with
  | Json.obj fs =>
    match lookupField fs "dependencies" with
    | some (Json.arr ds) => ds
    | _ => []
  | _ => []

/-- Patch component of a version value: index 2 of an integer list. -/
def patchOf (v : Json) : Option Int :=
  match v with
  | Json.arr vs =>
    match nth vs 2 with
    | some (Json.num n) => some n
    | _ => none
  | _ => none

/-- Patch component of the header version. -/
def headerPatch (m : Json) : Option Int := (headerVersion m).bind patchOf

/-- Version value of one module record. -/
def modVersion (j : Json) : Option Json :=
  match j with
  | Json.obj mfs => lookupField mfs "version"
  | _ => none

/-- Patch component of module i of a manifest. -/
def modulePatch (m : Json) (i : Nat) : Option Int :=
  (nth (modulesOf m) i).bind (fun md => (modVersion md).bind patchOf)

/-- Component i of a version value. -/
def verComp (v : Json) (i : Nat) : Option Json :=
  match v with
  | Json.arr vs => nth vs i
  | _ => none

/-- Component i of the header version of a manifest. -/
def headerVerComp (m : Json) (i : Nat) : Option Json :=
  (headerVersion m).bind (fun v => verComp v i)

/-- Component i of the version of module j of a manifest. -/
def moduleVerComp (m : Json) (j i : Nat) : Option Json :=
  (nth (modulesOf m) j).bind (fun md => (modVersion md).bind (fun v => verComp v i))

theorem bumpVerList_inv (vs vs1 : List Json) (h : bumpVerList vs = Except.ok vs1) :
    ∃ n : Int, nth vs 2 = some (Json.num n) ∧ vs1 = setNth vs 2 (Json.num (n + 1)) := by
  unfold bumpVerList at h
  split at h <;> try (simp at h)
  rename_i n hn
  exact ⟨n, hn, h.symm⟩

theorem bumpMod_inv (x y : Json) (h : bumpMod x = Except.ok y) :
    ∃ (xfs : List (String × Json)) (ws : List Json) (n : Int),
      x = Json.obj xfs ∧
      lookupField xfs "version" = some (Json.arr ws) ∧
      nth ws 2 = some (Json.num n) ∧
      y = Json.obj (setField xfs "version" (Json.arr (setNth ws 2 (Json.num (n + 1))))) := by
  unfold bumpMod at h
  split at h <;> try (simp at h)
  rename_i xfs
  split at h <;> try (simp at h)
  rename_i ws hws
  split at h <;> try (simp at h)
  rename_i vs1 hvs1
  obtain ⟨n, hn, hset⟩ := bumpVerList_inv _ _ hvs1
  exact ⟨xfs, ws, n, rfl, hws, hn, by rw [← h, hset]⟩

theorem bumpModules_lookup_ne (fs1 : List (String × Json)) (mv : Option Json)
    (fs2 : List (String × Json)) (h : bumpModules fs1 mv = Except.ok fs2)
    (k : String) (hk : k ≠ "modules") : lookupField fs2 k = lookupField fs1 k := by
  unfold bumpModules at h
  split at h
  · simp at h
    rw [← h]
  · split at h <;> try (simp at h)
    rw [← h, lookupField_setField_ne _ _ _ _ hk]
  · split at h <;> try (simp at h)
    rw [← h]
  · split at h <;> try (simp at h)
    rw [← h]
  · simp at h

theorem bumpModules_modules (fs1 : List (String × Json)) (mv : Option Json)
    (fs2 : List (String × Json)) (h : bumpModules fs1 mv = Except.ok fs2) :
    (∃ ms ms1, mv = some (Json.arr ms) ∧ mapExcept bumpMod ms = Except.ok ms1 ∧
      lookupField fs2 "modules" = some (Json.arr ms1)) ∨
    ((∀ ms, mv ≠ some (Json.arr ms)) ∧ lookupField fs2 "modules" = lookupField fs1 "modules") := by
  unfold bumpModules at h
  split at h
  · simp at h
    exact Or.inr ⟨by simp, by rw [← h]⟩
  · rename_i ms
    split at h <;> try (simp at h)
    rename_i ms1 hmap
    exact Or.inl ⟨ms, ms1, rfl, hmap, by rw [← h, lookupField_setField_self]⟩
  · rename_i t
    split at h <;> try (simp at h)
    exact Or.inr ⟨by simp, by rw [← h]⟩
  · rename_i mfs
    split at h <;> try (simp at h)
    exact Or.inr ⟨by simp, by rw [← h]⟩
  · simp at h

theorem bump_version_inv (m m1 v : Json) (h : bump_version m = Except.ok (m1, v)) :
    ∃ fs hfs vs vs1 fs2,
      m = Json.obj fs ∧
      lookupField fs "header" = some (Json.obj hfs) ∧
      lookupField hfs "version" = some (Json.arr vs) ∧
      bumpVerList vs = Except.ok vs1 ∧
      bumpModules (setField fs "header" (Json.obj (setField hfs "version" (Json.arr vs1))))
        (lookupField fs "modules") = Except.ok fs2 ∧
      m1 = Json.obj fs2 ∧ v = Json.arr vs1 := by
  unfold bump_version at h
  split at h <;> try (simp at h)
  rename_i fs
  split at h <;> try (simp at h)
  rename_i hfs hh
  split at h <;> try (simp at h)
  rename_i vs hver
  split at h <;> try (simp at h)
  rename_i vs1 hbv
  split at h <;> try (simp at h)
  rename_i fs2 hbm
  exact ⟨fs, hfs, vs, vs1, fs2, rfl, hh, hver, hbv, hbm, h.1.symm, h.2.symm⟩

/-- C2: one rotation of a manifest that bump_version accepts increments the
patch (third) component of the header version by exactly 1 and the patch
component of every module version by exactly 1 independently; since every
new patch value is old + 1, no patch component is ever decremented within
the rotation. -/
theorem c2_patch_bump (m m1 v : Json) (h : bump_version m = Except.ok (m1, v)) :
    (∃ p : Int, headerPatch m = some p ∧ headerPatch m1 = some (p + 1)) ∧
    (modulesOf m1).length = (modulesOf m).length ∧
    (∀ i, i < (modulesOf m).length →
      ∃ p : Int, modulePatch m i = some p ∧ modulePatch m1 i = some (p + 1)) := by
  obtain ⟨fs, hfs, vs, vs1, fs2, hm, hh, hver, hbv, hbm, hm1, hv⟩ := bump_version_inv m m1 v h
  obtain ⟨n, hn, hvs1⟩ := bumpVerList_inv vs vs1 hbv
  subst hm hm1 hv hvs1
  have hhead2 : lookupField fs2 "header" =
      some (Json.obj (setField hfs "version" (Json.arr (setNth vs 2 (Json.num (n + 1)))))) := by
    rw [bumpModules_lookup_ne _ _ _ hbm "header" (by decide), lookupField_setField_self]
  refine ⟨⟨n, ?_, ?_⟩, ?_⟩
  · simp [headerPatch, headerVersion, headerField, hh, hver, patchOf, hn]
  · simp [headerPatch, headerVersion, headerField, hhead2, lookupField_setField_self, patchOf,
      nth_setNth_self vs 2 _ _ hn]
  rcases bumpModules_modules _ _ _ hbm with ⟨ms, ms1, hmv, hmap, hms2⟩ | ⟨hne, hsame⟩
  · have hms : modulesOf (Json.obj fs) = ms := by simp [modulesOf, hmv]
    have hms1 : modulesOf (Json.obj fs2) = ms1 := by simp [modulesOf, hms2]
    rw [hms, hms1]
    refine ⟨mapExcept_ok_length _ _ _ hmap, ?_⟩
    intro i hi
    obtain ⟨x, hx⟩ := nth_lt ms i hi
    obtain ⟨y, hy, hxy⟩ := mapExcept_ok_nth _ _ _ hmap i x hx
    obtain ⟨xfs, ws, q, hxo, hxver, hq, hyo⟩ := bumpMod_inv x y hxy
    subst hxo hyo
    refine ⟨q, ?_, ?_⟩
    · simp [modulePatch, hms, hx, modVersion, hxver, patchOf, hq]
    · simp [modulePatch, hms1, hy, modVersion, lookupField_setField_self, patchOf,
        nth_setNth_self ws 2 _ _ hq]
  · have hsame2 : lookupField fs2 "modules" = lookupField fs "modules" := by
      rw [hsame, lookupField_setField_ne _ _ _ _ (by decide)]
    have hms : modulesOf (Json.obj fs) = [] := by
      simp only [modulesOf]
    have hms1 : modulesOf (Json.obj fs2) = [] := by
      simp only [modulesOf]
      rw [hsame2]
      cases hmf : lookupField fs "modules" with
      | none => rfl
      | some j =>
        cases j <;> simp_all
    rw [hms, hms1]
    exact ⟨rfl, by intro i hi; simp at hi⟩

/-- C7: a rotation that bump_version accepts leaves every component of the
header version and of every module version other than the patch (index 2)
component unchanged; in particular the major and minor components are
untouched. -/
theorem c7_major_minor_frame (m m1 v : Json) (h : bump_version m = Except.ok (m1, v)) :
    (∀ i, i ≠ 2 → headerVerComp m1 i = headerVerComp m i) ∧
    (∀ j i, i ≠ 2 → moduleVerComp m1 j i = moduleVerComp m j i) := by
  obtain ⟨fs, hfs, vs, vs1, fs2, hm, hh, hver, hbv, hbm, hm1, hv⟩ := bump_version_inv m m1 v h
  obtain ⟨n, hn, hvs1⟩ := bumpVerList_inv vs vs1 hbv
  subst hm hm1 hv hvs1
  have hhead2 : lookupField fs2 "header" =
      some (Json.obj (setField hfs "version" (Json.arr (setNth vs 2 (Json.num (n + 1)))))) := by
    rw [bumpModules_lookup_ne _ _ _ hbm "header" (by decide), lookupField_setField_self]
  constructor
  · intro i hi
    simp [headerVerComp, headerVersion, headerField, hh, hver, hhead2,
      lookupField_setField_self, verComp, nth_setNth_ne vs 2 i _ hi]
  rcases bumpModules_modules _ _ _ hbm with ⟨ms, ms1, hmv, hmap, hms2⟩ | ⟨hne, hsame⟩
  · have hms : modulesOf (Json.obj fs) = ms := by simp [modulesOf, hmv]
    have hms1 : modulesOf (Json.obj fs2) = ms1 := by simp [modulesOf, hms2]
    intro j i hi
    unfold moduleVerComp
    rw [hms, hms1]
    cases hx : nth ms j with
    | none =>
      have hlen : ms.length ≤ j := by
        by_contra hlt
        obtain ⟨x, hx2⟩ := nth_lt ms j (Nat.lt_of_not_le hlt)
        rw [hx2] at hx
        exact absurd hx (by simp)
      have : nth ms1 j = none := by
        rw [nth_none_of_le]
        rw [mapExcept_ok_length _ _ _ hmap]
        exact hlen
      rw [this]
    | some x =>
      obtain ⟨y, hy, hxy⟩ := mapExcept_ok_nth _ _ _ hmap j x hx
      obtain ⟨xfs, ws, q, hxo, hxver, hq, hyo⟩ := bumpMod_inv x y hxy
      subst hxo hyo
      rw [hy]
      simp [modVersion, hxver, lookupField_setField_self, verComp,
        nth_setNth_ne ws 2 i _ hi]
  · have hsame2 : lookupField fs2 "modules" = lookupField fs "modules" := by
      rw [hsame, lookupField_setField_ne _ _ _ _ (by decide)]
    have hms : modulesOf (Json.obj fs) = [] := by
      simp only [modulesOf]
    have hms1 : modulesOf (Json.obj fs2) = [] := by
      simp only [modulesOf]
      rw [hsame2]
      cases hmf : lookupField fs "modules" with
      | none => rfl
      | some j =>
        cases j <;> simp_all
    intro j i hi
    unfold moduleVerComp
    rw [hms, hms1]

/-- Concrete manifest with header version [1, 2, 3] and one module with
version [4, 5, 6], used to evaluate the rotation claims. -/
def mC2 : Json :=
  Json.obj [("header", Json.obj [("version", Json.arr [Json.num 1, Json.num 2, Json.num 3])]),
    ("modules", Json.arr [Json.obj [("version", Json.arr [Json.num 4, Json.num 5, Json.num 6])]])]

/-- Manifest mC2 after one rotation. -/
def mC2b : Json :=
  Json.obj [("header", Json.obj [("version", Json.arr [Json.num 1, Json.num 2, Json.num 4])]),
    ("modules", Json.arr [Json.obj [("version", Json.arr [Json.num 4, Json.num 5, Json.num 7])]])]

/-- Header version returned by the rotation of mC2. -/
def vC2 : Json := Json.arr [Json.num 1, Json.num 2, Json.num 4]

/-- Witness for c2_patch_bump at the concrete manifest mC2. -/
theorem c2_patch_bump_witness :
    (∃ p : Int, headerPatch mC2 = some p ∧ headerPatch mC2b = some (p + 1)) ∧
    (modulesOf mC2b).length = (modulesOf mC2).length ∧
    (∀ i, i < (modulesOf mC2).length →
      ∃ p : Int, modulePatch mC2 i = some p ∧ modulePatch mC2b i = some (p + 1)) :=
  c2_patch_bump mC2 mC2b vC2 rfl

/-- Witness for c7_major_minor_frame at the concrete manifest mC2. -/
theorem c7_major_minor_frame_witness :
    (∀ i, i ≠ 2 → headerVerComp mC2b i = headerVerComp mC2 i) ∧
    (∀ j i, i ≠ 2 → moduleVerComp mC2b j i = moduleVerComp mC2 j i) :=
  c7_major_minor_frame mC2 mC2b vC2 rfl

/-- Syntactically valid manifest whose header version has only two
components, so it passes the validator but crashes the bump. -/
def jC10bad : Json :=
  Json.obj [("header", Json.obj [("version", Json.arr [Json.num 1, Json.num 0])])]

/-- Well-shaped variant of jC10bad on which the bump succeeds. -/
def jC10good : Json :=
  Json.obj [("header", Json.obj [("version", Json.arr [Json.num 1, Json.num 0, Json.num 0])])]

/-- C10: passing validation does not guarantee the rotation succeeds. The
validator only checks that a file parses, and jC10bad parses, yet
bump_version reaches its unhandled IndexError branch on it; the same bump
succeeds once the manifest has the expected header shape, so the bump is
safe only under that unstated precondition. -/
theorem c10_validator_gap :
    validate_json (some jC10bad) = true ∧
    bump_version jC10bad = Except.error "IndexError" ∧
    validate_json (some jC10good) = true ∧
    (bump_version jC10good).isOk = true :=
  ⟨rfl, rfl, rfl, rfl⟩

/-- Embedding of the loop body of generate_new_uuids for one module at
supply index idx: module[uuid] = str(uuid.uuid4()), which creates or
replaces the key on a dict and raises on anything else. -/
def rotateMod (s : Nat → String) (idx : Nat) (m : Json) : Except String Json :=
  match m with
  | Json.obj fs => Except.ok (Json.obj (setField fs "uuid" (Json.str (s idx))))
  | _ => Except.error "TypeError"

/-- Indexed sequencing of a fallible body over a list, threading the
supply counter: element i of the list uses index start + i. -/
def mapIdxExcept (f : Nat → Json → Except String Json) : Nat → List Json → Except String (List Json)
  | _, [] => Except.ok []
  | i, x :: xs =>
    match f i x with
    | Except.error e => Except.error e
    | Except.ok y =>
      match mapIdxExcept f (i + 1) xs with
      | Except.error e => Except.error e
      | Except.ok ys => Except.ok (y :: ys)

/-- Embedding of the module loop of generate_new_uuids over
manifest.get(modules, []), with the same container treatment as the bump
loop; returns the updated field list and the next unused supply index. -/
def rotateModules (s : Nat → String) (c1 : Nat) (fs1 : List (String × Json))
    (modsVal : Option Json) : Except String (List (String × Json) × Nat) :=
  match modsVal with
  | none => Except.ok (fs1, c1)
  | some (Json.arr ms) =>
    match mapIdxExcept (rotateMod s) c1 ms with
    | Except.error e => Except.error e
    | Except.ok ms1 => Except.ok (setField fs1 "modules" (Json.arr ms1), c1 + ms.length)
  | some (Json.str t) => if t.isEmpty then Except.ok (fs1, c1) else Except.error "TypeError"
  | some (Json.obj mfs) => if mfs.isEmpty then Except.ok (fs1, c1) else Except.error "TypeError"
  | some _ => Except.error "TypeError"

/-- Embedding of generate_new_uuids: read the old header uuid, assign a
fresh token (supply index c) to the header, assign fresh tokens to every
module (supply indices c+1, c+2, ...), write the manifest back, and return
the old header uuid, the new header uuid, the new manifest, and the next
unused supply index. An error leaves the file unwritten. -/
def generate_new_uuids (m : Json) (s : Nat → String) (c : Nat) :
    Except String (Json × String × Json × Nat) :=
  match m with
  | Json.obj fs =>
    match lookupField fs "header" with
    | some (Json.obj hfs) =>
      match lookupField hfs "uuid" with
      | some old =>
        match rotateModules s (c + 1)
            (setField fs "header" (Json.obj (setField hfs "uuid" (Json.str (s c)))))
            (lookupField fs "modules") with
        | Except.error e => Except.error e
        | Except.ok (fs2, c2) => Except.ok (old, s c, Json.obj fs2, c2)
      | none => Except.error "KeyError"
    | some _ => Except.error "TypeError"
    | none => Except.error "KeyError"
  | _ => Except.error "AttributeError"

/-- Identity token carried by one module record, when it is a string. -/
def modUuidTokens (j : Json) : List String :=
  match j with
  | Json.obj mfs =>
    match lookupField mfs "uuid" with
    | some (Json.str t) => [t]
    | _ => []
  | _ => []

/-- Every string identity token of a manifest: the header uuid followed by
the module uuids in order. -/
def manifestTokens (m : Json) : List String :=
  (match headerUuid m with
   | some (Json.str t) => [t]
   | _ => []) ++ ((modulesOf m).map modUuidTokens).flatten

theorem mapIdxExcept_rotate (s : Nat → String) (ms : List Json) :
    ∀ (i : Nat) (ms1 : List Json), mapIdxExcept (rotateMod s) i ms = Except.ok ms1 →
      (ms1.map modUuidTokens).flatten = (List.range' i ms.length).map s ∧
      ms1.length = ms.length := by
  induction ms with
  | nil =>
    intro i ms1 h
    simp [mapIdxExcept] at h
    subst h
    simp
  | cons x xs ih =>
    intro i ms1 h
    unfold mapIdxExcept at h
    cases hx : rotateMod s i x with
    | error e => rw [hx] at h; simp at h
    | ok y =>
      rw [hx] at h
      cases hxs : mapIdxExcept (rotateMod s) (i + 1) xs with
      | error e => rw [hxs] at h; simp at h
      | ok ys =>
        rw [hxs] at h
        simp at h
        subst h
        obtain ⟨h1, h2⟩ := ih (i + 1) ys hxs
        unfold rotateMod at hx
        cases x <;> simp at hx
        subst hx
        constructor
        · simp [modUuidTokens, lookupField_setField_self, h1, List.range'_succ]
        · simp [h2]

theorem rotateModules_inv (s : Nat → String) (c1 : Nat) (fs1 : List (String × Json))
    (mv : Option Json) (fs2 : List (String × Json)) (c2 : Nat)
    (h : rotateModules s c1 fs1 mv = Except.ok (fs2, c2)) :
    (∀ k, k ≠ "modules" → lookupField fs2 k = lookupField fs1 k) ∧
    c1 ≤ c2 ∧
    ((∃ ms ms1, mv = some (Json.arr ms) ∧ mapIdxExcept (rotateMod s) c1 ms = Except.ok ms1 ∧
        lookupField fs2 "modules" = some (Json.arr ms1) ∧ c2 = c1 + ms.length) ∨
     ((∀ ms, mv ≠ some (Json.arr ms)) ∧
        lookupField fs2 "modules" = lookupField fs1 "modules" ∧ c2 = c1)) := by
  unfold rotateModules at h
  split at h
  · simp at h
    obtain ⟨h1, h2⟩ := h
    subst h1 h2
    exact ⟨fun k hk => rfl, Nat.le_refl _, Or.inr ⟨by simp, rfl, rfl⟩⟩
  · rename_i ms
    split at h <;> try (simp at h)
    rename_i ms1 hmap
    obtain ⟨h1, h2⟩ := h
    subst h1 h2
    exact ⟨fun k hk => lookupField_setField_ne _ _ _ _ hk, Nat.le_add_right _ _,
      Or.inl ⟨ms, ms1, rfl, hmap, lookupField_setField_self _ _ _, rfl⟩⟩
  · split at h <;> try (simp at h)
    obtain ⟨h1, h2⟩ := h
    subst h1 h2
    exact ⟨fun k hk => rfl, Nat.le_refl _, Or.inr ⟨by simp, rfl, rfl⟩⟩
  · split at h <;> try (simp at h)
    obtain ⟨h1, h2⟩ := h
    subst h1 h2
    exact ⟨fun k hk => rfl, Nat.le_refl _, Or.inr ⟨by simp, rfl, rfl⟩⟩
  · simp at h

theorem generate_new_uuids_inv (m : Json) (s : Nat → String) (c : Nat)
    (old : Json) (nu : String) (m1 : Json) (c1 : Nat)
    (h : generate_new_uuids m s c = Except.ok (old, nu, m1, c1)) :
    nu = s c ∧ headerUuid m1 = some (Json.str (s c)) ∧
    headerVersion m1 = headerVersion m ∧
    manifestTokens m1 = (List.range' c (c1 - c)).map s ∧ c < c1 := by
  unfold generate_new_uuids at h
  split at h <;> try (simp at h)
  rename_i fs
  split at h <;> try (simp at h)
  rename_i hfs hh
  split at h <;> try (simp at h)
  rename_i oldv hold
  split at h <;> try (simp at h)
  rename_i pr fs2 c2 hrot
  obtain ⟨h1, h2, h3, h4⟩ := h
  subst h1 h2 h3 h4
  obtain ⟨hpres, hle, hcases⟩ := rotateModules_inv s (c + 1) _ _ fs2 c2 hrot
  have hhead2 : lookupField fs2 "header" =
      some (Json.obj (setField hfs "uuid" (Json.str (s c)))) := by
    rw [hpres "header" (by decide), lookupField_setField_self]
  refine ⟨rfl, ?_, ?_, ?_, Nat.lt_of_lt_of_le (Nat.lt_succ_self c) hle⟩
  · simp [headerUuid, headerField, hhead2, lookupField_setField_self]
  · simp [headerVersion, headerField, hhead2, hh,
      lookupField_setField_ne _ _ _ _ (by decide : ("version" : String) ≠ "uuid")]
  rcases hcases with ⟨ms, ms1, hmv, hmap, hlk, hc2⟩ | ⟨hne, hsame, hc2⟩
  · obtain ⟨htok, hlen⟩ := mapIdxExcept_rotate s ms (c + 1) ms1 hmap
    have hms1 : modulesOf (Json.obj fs2) = ms1 := by simp [modulesOf, hlk]
    have hc : c2 - c = ms.length + 1 := by omega
    simp [manifestTokens, headerUuid, headerField, hhead2, lookupField_setField_self,
      hms1, htok, hc, List.range'_succ]
  · have hm2 : lookupField fs2 "modules" = lookupField fs "modules" := by
      rw [hsame, lookupField_setField_ne _ _ _ _ (by decide)]
    have hms1 : modulesOf (Json.obj fs2) = [] := by
      simp only [modulesOf]
      rw [hm2]
      cases hmf : lookupField fs "modules" with
      | none => rfl
      | some j => cases j <;> simp_all
    have hc : c2 - c = 1 := by omega
    simp [manifestTokens, headerUuid, headerField, hhead2, lookupField_setField_self,
      hms1, hc, List.range'_succ]

/-- C5: when the UUID generator is modelled as an injective token supply
whose values are fresh with respect to both manifests, the rotation pass
of a run (generate_new_uuids on the behavior pack from counter 0, then on
the resource pack from the returned counter, exactly as main sequences
them) assigns tokens that are pairwise distinct across header and modules
of both packages and distinct from every token either manifest carried
before, in particular from the token each one replaces. -/
theorem c5_token_uniqueness (bp rp : Json) (s : Nat → String)
    (hinj : Function.Injective s)
    (hfresh : ∀ i, s i ∉ manifestTokens bp ∧ s i ∉ manifestTokens rp)
    (oB : Json) (nbu : String) (bp1 : Json) (c1 : Nat)
    (hbp : generate_new_uuids bp s 0 = Except.ok (oB, nbu, bp1, c1))
    (oR : Json) (nru : String) (rp1 : Json) (c2 : Nat)
    (hrp : generate_new_uuids rp s c1 = Except.ok (oR, nru, rp1, c2)) :
    (manifestTokens bp1 ++ manifestTokens rp1).Nodup ∧
    (∀ t ∈ manifestTokens bp1 ++ manifestTokens rp1,
      t ∉ manifestTokens bp ∧ t ∉ manifestTokens rp) := by
  obtain ⟨-, -, -, htokB, hltB⟩ := generate_new_uuids_inv bp s 0 oB nbu bp1 c1 hbp
  obtain ⟨-, -, -, htokR, hltR⟩ := generate_new_uuids_inv rp s c1 oR nru rp1 c2 hrp
  have hr : List.range' 0 c1 ++ List.range' c1 (c2 - c1) = List.range' 0 c2 := by
    have h0 := List.range'_append_1 0 c1 (c2 - c1)
    rw [Nat.zero_add] at h0
    rw [h0]
    congr 1
    omega
  have happ : manifestTokens bp1 ++ manifestTokens rp1 = (List.range' 0 c2).map s := by
    rw [htokB, htokR, Nat.sub_zero, ← List.map_append, hr]
  constructor
  · rw [happ]
    exact List.Nodup.map hinj (List.nodup_range' 0 c2)
  · intro t ht
    rw [happ] at ht
    obtain ⟨i, hi, hit⟩ := List.mem_map.mp ht
    rw [← hit]
    exact hfresh i

/-- Token supply used in witnesses: index n yields a string of n + 1
letters a, which is injective and avoids every token of the sample
manifests. -/
def sC5 : Nat → String := fun n => String.mk (List.replicate (n + 1) 'a')

/-- Sample behavior pack manifest before rotation. -/
def bpC5 : Json :=
  Json.obj [("header", Json.obj [("uuid", Json.str "X"),
    ("version", Json.arr [Json.num 1, Json.num 0, Json.num 0])])]

/-- Sample resource pack manifest before rotation, with one module. -/
def rpC5 : Json :=
  Json.obj [("header", Json.obj [("uuid", Json.str "Y")]),
    ("modules", Json.arr [Json.obj [("uuid", Json.str "Z")]])]

/-- Sample behavior pack manifest after rotation under sC5 from counter 0. -/
def bpC5r : Json :=
  Json.obj [("header", Json.obj [("uuid", Json.str "a"),
    ("version", Json.arr [Json.num 1, Json.num 0, Json.num 0])])]

/-- Sample resource pack manifest after rotation under sC5 from counter 1. -/
def rpC5r : Json :=
  Json.obj [("header", Json.obj [("uuid", Json.str "aa")]),
    ("modules", Json.arr [Json.obj [("uuid", Json.str "aaa")]])]

theorem sC5_inj : Function.Injective sC5 := by
  intro a b h
  have h2 : List.replicate (a + 1) 'a' = List.replicate (b + 1) 'a' := congrArg String.data h
  have h3 := congrArg List.length h2
  simp at h3
  exact h3

theorem sC5_ne (i : Nat) (t : String) (hch : 'a' ∉ t.data) : sC5 i ≠ t := by
  intro h
  apply hch
  rw [← h]
  show 'a' ∈ List.replicate (i + 1) 'a'
  simp

theorem sC5_fresh : ∀ i, sC5 i ∉ manifestTokens bpC5 ∧ sC5 i ∉ manifestTokens rpC5 := by
  intro i
  have hbp : manifestTokens bpC5 = ["X"] := rfl
  have hrp : manifestTokens rpC5 = ["Y", "Z"] := rfl
  rw [hbp, hrp]
  refine ⟨?_, ?_⟩
  · simp only [List.mem_singleton]
    exact sC5_ne i "X" (by decide)
  · intro hmem
    rcases List.mem_cons.mp hmem with h1 | h1
    · exact sC5_ne i "Y" (by decide) h1
    · exact sC5_ne i "Z" (by decide) (List.mem_singleton.mp h1)

/-- Witness for c5_token_uniqueness at the sample manifests and supply. -/
theorem c5_token_uniqueness_witness :
    (manifestTokens bpC5r ++ manifestTokens rpC5r).Nodup ∧
    (∀ t ∈ manifestTokens bpC5r ++ manifestTokens rpC5r,
      t ∉ manifestTokens bpC5 ∧ t ∉ manifestTokens rpC5) :=
  c5_token_uniqueness bpC5 rpC5 sC5 sC5_inj sC5_fresh
    (Json.str "X") "a" bpC5r 1 rfl (Json.str "Y") "aa" rpC5r 3 rfl

/-- Containment of one character list in another as a contiguous run,
mirroring the Python substring test used when the in operator meets a
string operand. -/
def containsSub (pat : List Char) : List Char → Bool
  | [] => pat.isEmpty
  | c :: cs => pat.isPrefixOf (c :: cs) || containsSub pat cs

/-- Embedding of the loop body of update_rp_dependency for one element of
the dependencies container: the test uuid in dep is a key test on a dict,
a substring test on a string, and a membership test on a list; the
assignments that follow only succeed on a dict and raise elsewhere. -/
def updateDep (u : String) (v : Json) : Json → Except String Json
  | Json.obj dfs =>
    if (lookupField dfs "uuid").isSome then
      Except.ok (Json.obj (setField (setField dfs "uuid" (Json.str u)) "version" v))
    else
      Except.ok (Json.obj dfs)
  | Json.str t => if containsSub "uuid".data t.data then Except.error "TypeError"
      else Except.ok (Json.str t)
  | Json.arr xs =>
    if xs.any (fun x => match x with | Json.str t => t = "uuid" | _ => false) then
      Except.error "TypeError"
    else Except.ok (Json.arr xs)
  | _ => Except.error "TypeError"

/-- Embedding of update_rp_dependency: for every element of
manifest.get(dependencies, []) that carries a uuid key, overwrite its uuid
and version with the new behavior pack values, then write the manifest
back. Iterating a string or dict container visits strings, which the body
leaves unchanged or raises on; only a list container can be mutated. -/
def update_rp_dependency (m : Json) (u : String) (v : Json) : Except String Json :=
  match m with
  | Json.obj fs =>
    match lookupField fs "dependencies" with
    | none => Except.ok (Json.obj fs)
    | some (Json.arr deps) =>
      match mapExcept (updateDep u v) deps with
      | Except.error e => Except.error e
      | Except.ok deps1 => Except.ok (Json.obj (setField fs "dependencies" (Json.arr deps1)))
    | some (Json.str t) =>
      match mapExcept (updateDep u v) (t.data.map (fun ch => Json.str (String.mk [ch]))) with
      | Except.error e => Except.error e
      | Except.ok _ => Except.ok (Json.obj fs)
    | some (Json.obj dfs) =>
      match mapExcept (updateDep u v) (dfs.map (fun p => Json.str p.1)) with
      | Except.error e => Except.error e
      | Except.ok _ => Except.ok (Json.obj fs)
    | some _ => Except.error "TypeError"
  | _ => Except.error "AttributeError"

/-- C4: on a dependent manifest whose dependency list holds only record
entries without an identity (uuid) field, the synchronization step returns
without error and leaves the manifest, in particular its dependency list,
unchanged: the skip is silent. -/
theorem c4_silent_skip (fs : List (String × Json)) (deps : List Json) (u : String) (v : Json)
    (hdeps : lookupField fs "dependencies" = some (Json.arr deps))
    (hrec : ∀ d ∈ deps, ∃ dfs, d = Json.obj dfs ∧ lookupField dfs "uuid" = none) :
    update_rp_dependency (Json.obj fs) u v = Except.ok (Json.obj fs) := by
  have hmap : mapExcept (updateDep u v) deps = Except.ok deps := by
    apply mapExcept_ok_id
    intro x hx
    obtain ⟨dfs, hx1, hx2⟩ := hrec x hx
    subst hx1
    simp [updateDep, hx2]
  simp only [update_rp_dependency, hdeps, hmap]
  rw [setField_self_of_lookup fs "dependencies" (Json.arr deps) hdeps]

/-- Dependent manifest with a single symbolic (module_name) dependency and
no uuid-carrying entry. -/
def fsC4 : List (String × Json) :=
  [("dependencies", Json.arr [Json.obj [("module_name", Json.str "m"),
    ("version", Json.arr [Json.num 1, Json.num 0, Json.num 0])]])]

/-- Witness for c4_silent_skip at the concrete manifest fsC4. -/
theorem c4_silent_skip_witness :
    update_rp_dependency (Json.obj fsC4) "u" (Json.arr [Json.num 9, Json.num 9, Json.num 9]) =
      Except.ok (Json.obj fsC4) :=
  c4_silent_skip fsC4
    [Json.obj [("module_name", Json.str "m"), ("version", Json.arr [Json.num 1, Json.num 0, Json.num 0])]]
    "u" (Json.arr [Json.num 9, Json.num 9, Json.num 9]) rfl
    (by
      intro d hd
      rw [List.mem_singleton] at hd
      exact ⟨_, hd, rfl⟩)

theorem update_rp_dependency_spec (m : Json) (u : String) (v : Json) (m1 : Json)
    (h : update_rp_dependency m u v = Except.ok m1) :
    ∀ dfs, Json.obj dfs ∈ depsOf m1 → (lookupField dfs "uuid").isSome = true →
      lookupField dfs "uuid" = some (Json.str u) ∧ lookupField dfs "version" = some v := by
  intro dfs hd hu
  unfold update_rp_dependency at h
  split at h <;> try (simp at h)
  rename_i fs
  split at h
  · rename_i hdep
    simp at h
    subst h
    simp [depsOf, hdep] at hd
  · rename_i deps hdep
    split at h <;> try (simp at h)
    rename_i deps1 hmap
    subst h
    have hdeps1 : depsOf (Json.obj (setField fs "dependencies" (Json.arr deps1))) = deps1 := by
      simp [depsOf, lookupField_setField_self]
    rw [hdeps1] at hd
    obtain ⟨x, hx, hxy⟩ := mapExcept_ok_mem _ _ _ hmap _ hd
    unfold updateDep at hxy
    split at hxy
    · rename_i xfs
      split at hxy
      · simp at hxy
        rw [← hxy]
        constructor
        · rw [lookupField_setField_ne _ _ _ _ (by decide : ("uuid" : String) ≠ "version")]
          exact lookupField_setField_self _ _ _
        · exact lookupField_setField_self _ _ _
      · rename_i hc
        simp at hxy
        subst hxy
        exact absurd hu hc
    · split at hxy <;> simp at hxy
    · split at hxy <;> simp at hxy
    · simp at hxy
  · rename_i t hdep
    split at h <;> try (simp at h)
    subst h
    simp [depsOf, hdep] at hd
  · rename_i dfs2 hdep
    split at h <;> try (simp at h)
    subst h
    simp [depsOf, hdep] at hd
  · simp at h

/-- Observable action of the lifecycle controller: a status line, a prompt
read, a countdown checkpoint with its warning command, a real-time wait in
seconds, or a forced termination of the host process. -/
inductive Ev where
  | info (s : String) : Ev
  | promptShown : Ev
  | checkpoint (secondsLeft : Int) (msg : String) : Ev
  | sleep (seconds : Int) : Ev
  | kill : Ev
deriving DecidableEq, Repr

/-- Result of kill_running_server: a normal return with its boolean value,
a process exit with a code (sys.exit), or blocking forever on input when
the operator never answers. -/
inductive LsOutcome where
  | returned (b : Bool) : LsOutcome
  | exited (code : Nat) : LsOutcome
  | blocked : LsOutcome
deriving DecidableEq, Repr

/-- The fixed countdown schedule of kill_running_server: pairs of seconds
remaining and the say command shown to the operator. -/
def warnings : List (Int × String) :=
  [(30, "say [!] SERVER RESTARTING IN 30 SECONDS!"),
   (20, "say [!] Server restarting in 20 seconds..."),
   (10, "say [!] Server restarting in 10 seconds..."),
   (5, "say [!] Server restarting in 5 seconds! Save your progress!"),
   (3, "say 3..."),
   (2, "say 2..."),
   (1, "say 1..."),
   (0, "say [!] SERVER RESTARTING NOW!")]

/-- Walk of the countdown loop: for each schedule entry, the wait performed
before that checkpoint (last_time - seconds_left) together with the
checkpoint value and message, threading last_time exactly as the code does
starting from 30. -/
def countdownPlan (last : Int) : List (Int × String) → List (Int × Int × String)
  | [] => []
  | (sec, msg) :: rest => (last - sec, sec, msg) :: countdownPlan sec rest

/-- Events of one countdown step: the positive wait, if any, then the
checkpoint print. -/
def stepEvents (p : Int × Int × String) : List Ev :=
  (if p.1 > 0 then [Ev.sleep p.1] else []) ++ [Ev.checkpoint p.2.1 p.2.2]

/-- Full event list of the 30-second countdown. -/
def countdownEvents : List Ev := ((countdownPlan 30 warnings).map stepEvents).flatten

/-- Embedding of the prompt loop of kill_running_server over the stripped
operator answers: choice 3 exits cleanly, choice 1 kills at once, choice 2
runs the countdown then kills, anything else reprompts; running out of
answers blocks. -/
def choiceLoop : List String → List Ev × LsOutcome
  | [] => ([], LsOutcome.blocked)
  | c :: rest =>
    if c = "3" then
      ([Ev.promptShown, Ev.info "Cancelled. Server is still running."], LsOutcome.exited 0)
    else if c = "1" then
      ([Ev.promptShown, Ev.info "Stopping server immediately...", Ev.kill, Ev.sleep 2,
        Ev.info "Server stopped successfully"], LsOutcome.returned true)
    else if c = "2" then
      ([Ev.promptShown, Ev.info "30-second countdown mode"] ++ countdownEvents ++
        [Ev.sleep 1, Ev.info "Countdown complete. Stopping server...", Ev.kill, Ev.sleep 2,
         Ev.info "Server stopped successfully"], LsOutcome.returned true)
    else
      ((Ev.promptShown :: Ev.info "Invalid choice. Please enter 1, 2, or 3." ::
        (choiceLoop rest).1), (choiceLoop rest).2)

/-- Embedding of kill_running_server: a no-op returning False off Windows
or when the process listing does not show bedrock_server.exe, otherwise
the interactive prompt loop. -/
def kill_running_server (win32 serverRunning : Bool) (choices : List String) :
    List Ev × LsOutcome :=
  if win32 = false then ([], LsOutcome.returned false)
  else if serverRunning = false then
    ([Ev.info "Server is not running"], LsOutcome.returned false)
  else
    ((Ev.info "Bedrock server is running." :: (choiceLoop choices).1), (choiceLoop choices).2)

/-- C8: in the warned-countdown choice the controller emits exactly the
checkpoints 30, 20, 10, 5, 3, 2, 1, 0 in strictly decreasing order, with a
nonempty warning message at each, and the wait performed before each later
checkpoint equals the difference between the previous and the current
checkpoint value; the full event trace of that choice shows the forced
kill after the 0-second checkpoint followed by the 2-second settle wait
before the controller proceeds. -/
theorem c8_countdown :
    (countdownPlan 30 warnings).map (fun p => p.2.1) = [30, 20, 10, 5, 3, 2, 1, 0] ∧
    (((countdownPlan 30 warnings).zip (countdownPlan 30 warnings).tail).all
      (fun pq => decide (pq.2.2.1 < pq.1.2.1) && decide (pq.2.1 = pq.1.2.1 - pq.2.2.1))) = true ∧
    ((countdownPlan 30 warnings).all (fun p => !p.2.2.isEmpty)) = true ∧
    (kill_running_server true true ["2"]).1 =
      [Ev.info "Bedrock server is running.", Ev.promptShown,
       Ev.info "30-second countdown mode"] ++ countdownEvents ++
      [Ev.sleep 1, Ev.info "Countdown complete. Stopping server...", Ev.kill, Ev.sleep 2,
       Ev.info "Server stopped successfully"] ∧
    (kill_running_server true true ["2"]).2 = LsOutcome.returned true := by
  refine ⟨by decide, by decide, by decide, ?_, ?_⟩ <;> rfl

/-- How a run of main terminates: normal completion (process exit code 0
after the summary), an explicit sys.exit with a code, an uncaught
exception, or blocking forever on operator input. -/
inductive ExitStatus where
  | completed : ExitStatus
  | exited (code : Nat) : ExitStatus
  | errored (msg : String) : ExitStatus
  | blocked : ExitStatus
deriving DecidableEq, Repr

/-- Input state of one pipeline run: platform, process listing, operator
answers, parse outcomes of every JSON file found in each pack, the two
manifests on disk, and the UUID supply. -/
structure World where
  win32 : Bool
  serverRunning : Bool
  choices : List String
  bpFiles : List (Option Json)
  rpFiles : List (Option Json)
  bp : Json
  rp : Json
  supply : Nat → String

/-- Observable outcome of one pipeline run: how it ended, the two
manifests on disk afterwards, whether the validator ran, whether the packs
were copied to the world, whether the world pack configs were rewritten,
whether cache clearing was attempted, and the lifecycle event trace. -/
structure RunResult where
  status : ExitStatus
  bp : Json
  rp : Json
  validatorRan : Bool
  published : Bool
  configsWritten : Bool
  cacheAttempted : Bool
  lsEvents : List Ev

/-- Embedding of one half of update_world_pack_configs: the registration
record written for a manifest, a singleton list with the header uuid and
version; reading a malformed header raises. -/
def packConfig (m : Json) : Except String Json :=
  match m with
  | Json.obj fs =>
    match lookupField fs "header" with
    | some (Json.obj hfs) =>
      match lookupField hfs "uuid", lookupField hfs "version" with
      | some u, some ver => Except.ok (Json.arr [Json.obj [("pack_id", u), ("version", ver)]])
      | _, _ => Except.error "KeyError"
    | some _ => Except.error "TypeError"
    | none => Except.error "KeyError"
  | _ => Except.error "AttributeError"

/-- Steps 1 through 6 of main, entered after the lifecycle controller
returned: validate every file, then bump both manifests, rotate both sets
of UUIDs, rewrite the resource pack dependency, copy both packs, rewrite
both world configs, and attempt the cache clear on Windows. A validation
failure exits with code 1 before touching anything; a later raise halts
the run leaving the already mutated manifests in place. -/
def runPipeline (w : World) (evs : List Ev) : RunResult :=
  if allValid (w.bpFiles ++ w.rpFiles) = true then
    match bump_version w.bp with
    | Except.error e => ⟨ExitStatus.errored e, w.bp, w.rp, true, false, false, false, evs⟩
    | Except.ok (bp1, bpVer) =>
      match bump_version w.rp with
      | Except.error e => ⟨ExitStatus.errored e, bp1, w.rp, true, false, false, false, evs⟩
      | Except.ok (rp1, _rpVer) =>
        match generate_new_uuids bp1 w.supply 0 with
        | Except.error e => ⟨ExitStatus.errored e, bp1, rp1, true, false, false, false, evs⟩
        | Except.ok (_oldB, nbu, bp2, c1) =>
          match generate_new_uuids rp1 w.supply c1 with
          | Except.error e => ⟨ExitStatus.errored e, bp2, rp1, true, false, false, false, evs⟩
          | Except.ok (_oldR, _nru, rp2, _c2) =>
            match update_rp_dependency rp2 nbu bpVer with
            | Except.error e => ⟨ExitStatus.errored e, bp2, rp2, true, false, false, false, evs⟩
            | Except.ok rp3 =>
              match packConfig bp2 with
              | Except.error e => ⟨ExitStatus.errored e, bp2, rp3, true, true, false, false, evs⟩
              | Except.ok _ =>
                match packConfig rp3 with
                | Except.error e => ⟨ExitStatus.errored e, bp2, rp3, true, true, false, false, evs⟩
                | Except.ok _ =>
                  ⟨ExitStatus.completed, bp2, rp3, true, true, true, w.win32, evs⟩
  else
    ⟨ExitStatus.exited 1, w.bp, w.rp, true, false, false, false, evs⟩

/-- Embedding of main: run the lifecycle controller first; a sys.exit or a
block there ends the run with nothing else executed, otherwise the
pipeline steps run. -/
def mainRun (w : World) : RunResult :=
  match kill_running_server w.win32 w.serverRunning w.choices with
  | (evs, LsOutcome.exited c) => ⟨ExitStatus.exited c, w.bp, w.rp, false, false, false, false, evs⟩
  | (evs, LsOutcome.blocked) => ⟨ExitStatus.blocked, w.bp, w.rp, false, false, false, false, evs⟩
  | (evs, LsOutcome.returned _) => runPipeline w evs

theorem runPipeline_validatorRan (w : World) (evs : List Ev) :
    (runPipeline w evs).validatorRan = true := by
  unfold runPipeline
  repeat' split
  all_goals rfl

/-- C3: when the lifecycle controller returns (the operator did not cancel)
and some JSON file of either pack fails to parse, the run exits with the
nonzero code 1, both manifests on disk are exactly the input manifests, no
pack is published, no world config is rewritten, and no cache clearing is
attempted: partial validation success is not acted upon. -/
theorem c3_validation_gate (w : World) (b : Bool)
    (hls : (kill_running_server w.win32 w.serverRunning w.choices).2 = LsOutcome.returned b)
    (hbad : allValid (w.bpFiles ++ w.rpFiles) = false) :
    (mainRun w).status = ExitStatus.exited 1 ∧ (mainRun w).bp = w.bp ∧ (mainRun w).rp = w.rp ∧
    (mainRun w).published = false ∧ (mainRun w).configsWritten = false ∧
    (mainRun w).cacheAttempted = false := by
  rcases hk : kill_running_server w.win32 w.serverRunning w.choices with ⟨evs, out⟩
  rw [hk] at hls
  simp at hls
  subst hls
  have hm : mainRun w = runPipeline w evs := by
    unfold mainRun
    rw [hk]
  rw [hm]
  unfold runPipeline
  rw [hbad]
  simp

/-- World with a failed parse among the behavior pack files and no running
server, used to witness the validation gate. -/
def wC3 : World := ⟨false, false, [], [none], [], bpC5, rpC5, sC5⟩

/-- Witness for c3_validation_gate at the concrete world wC3. -/
theorem c3_validation_gate_witness :
    (mainRun wC3).status = ExitStatus.exited 1 ∧ (mainRun wC3).bp = wC3.bp ∧
    (mainRun wC3).rp = wC3.rp ∧ (mainRun wC3).published = false ∧
    (mainRun wC3).configsWritten = false ∧ (mainRun wC3).cacheAttempted = false :=
  c3_validation_gate wC3 false rfl rfl

/-- C6: when the host process is running and the operator answers 3
(cancel), the run exits with code 0; the validator never runs, both
manifests are untouched, nothing is published, no config is rewritten, no
cache clearing is attempted, and no termination call appears in the
lifecycle trace. -/
theorem c6_cancel (w : World) (rest : List String)
    (hc : w.choices = "3" :: rest) (hw : w.win32 = true) (hs : w.serverRunning = true) :
    (mainRun w).status = ExitStatus.exited 0 ∧ (mainRun w).validatorRan = false ∧
    (mainRun w).bp = w.bp ∧ (mainRun w).rp = w.rp ∧ (mainRun w).published = false ∧
    (mainRun w).configsWritten = false ∧ (mainRun w).cacheAttempted = false ∧
    Ev.kill ∉ (mainRun w).lsEvents := by
  have hk : kill_running_server w.win32 w.serverRunning w.choices =
      ([Ev.info "Bedrock server is running.", Ev.promptShown,
        Ev.info "Cancelled. Server is still running."], LsOutcome.exited 0) := by
    rw [hw, hs, hc]
    rfl
  have hm : mainRun w = ⟨ExitStatus.exited 0, w.bp, w.rp, false, false, false, false,
      [Ev.info "Bedrock server is running.", Ev.promptShown,
       Ev.info "Cancelled. Server is still running."]⟩ := by
    unfold mainRun
    rw [hk]
  rw [hm]
  refine ⟨rfl, rfl, rfl, rfl, rfl, rfl, rfl, ?_⟩
  show Ev.kill ∉ [Ev.info "Bedrock server is running.", Ev.promptShown,
    Ev.info "Cancelled. Server is still running."]
  decide

/-- World with a running server and the operator answering cancel. -/
def wC6 : World := ⟨true, true, ["3"], [], [], bpC5, rpC5, sC5⟩

/-- Witness for c6_cancel at the concrete world wC6. -/
theorem c6_cancel_witness :
    (mainRun wC6).status = ExitStatus.exited 0 ∧ (mainRun wC6).validatorRan = false ∧
    (mainRun wC6).bp = wC6.bp ∧ (mainRun wC6).rp = wC6.rp ∧ (mainRun wC6).published = false ∧
    (mainRun wC6).configsWritten = false ∧ (mainRun wC6).cacheAttempted = false ∧
    Ev.kill ∉ (mainRun wC6).lsEvents :=
  c6_cancel wC6 [] rfl rfl rfl

/-- C9: off Windows, or when the host process is absent from the process
listing, the lifecycle controller returns False immediately with no prompt
and no termination call in its trace, and the run goes on to execute the
validator unconditionally. -/
theorem c9_no_server (w : World) (h : w.win32 = false ∨ w.serverRunning = false) :
    (kill_running_server w.win32 w.serverRunning w.choices).2 = LsOutcome.returned false ∧
    Ev.promptShown ∉ (kill_running_server w.win32 w.serverRunning w.choices).1 ∧
    Ev.kill ∉ (kill_running_server w.win32 w.serverRunning w.choices).1 ∧
    (mainRun w).validatorRan = true := by
  have hks : kill_running_server w.win32 w.serverRunning w.choices =
        ([], LsOutcome.returned false) ∨
      kill_running_server w.win32 w.serverRunning w.choices =
        ([Ev.info "Server is not running"], LsOutcome.returned false) := by
    rcases h with h | h
    · left
      simp [kill_running_server, h]
    · cases hw : w.win32 with
      | false => left; simp [kill_running_server, hw]
      | true => right; simp [kill_running_server, hw, h]
  rcases hks with hks | hks
  · rw [hks]
    refine ⟨rfl, by decide, by decide, ?_⟩
    have hm : mainRun w = runPipeline w [] := by
      unfold mainRun
      rw [hks]
    rw [hm]
    exact runPipeline_validatorRan w []
  · rw [hks]
    refine ⟨rfl, by decide, by decide, ?_⟩
    have hm : mainRun w = runPipeline w [Ev.info "Server is not running"] := by
      unfold mainRun
      rw [hks]
    rw [hm]
    exact runPipeline_validatorRan w _

/-- World off Windows, used to witness the lifecycle no-op. -/
def wC9 : World := ⟨false, true, [], [], [], bpC5, rpC5, sC5⟩

/-- Witness for c9_no_server at the concrete world wC9. -/
theorem c9_no_server_witness :
    (kill_running_server wC9.win32 wC9.serverRunning wC9.choices).2 = LsOutcome.returned false ∧
    Ev.promptShown ∉ (kill_running_server wC9.win32 wC9.serverRunning wC9.choices).1 ∧
    Ev.kill ∉ (kill_running_server wC9.win32 wC9.serverRunning wC9.choices).1 ∧
    (mainRun wC9).validatorRan = true :=
  c9_no_server wC9 (Or.inl rfl)

theorem bump_version_header (m m1 v : Json) (h : bump_version m = Except.ok (m1, v)) :
    headerVersion m1 = some v := by
  obtain ⟨fs, hfs, vs, vs1, fs2, hm, hh, hver, hbv, hbm, hm1, hv⟩ := bump_version_inv m m1 v h
  subst hm hm1 hv
  have hhead2 : lookupField fs2 "header" =
      some (Json.obj (setField hfs "version" (Json.arr vs1))) := by
    rw [bumpModules_lookup_ne _ _ _ hbm "header" (by decide), lookupField_setField_self]
  simp [headerVersion, headerField, hhead2, lookupField_setField_self]

theorem runPipeline_eq_completed (w : World) (evs : List Ev)
    (hv : allValid (w.bpFiles ++ w.rpFiles) = true)
    (bp1 bpVer rp1 rpVer : Json) (oB : Json) (nbu : String) (bp2 : Json) (c1 : Nat)
    (oR : Json) (nru : String) (rp2 : Json) (c2 : Nat) (rp3 : Json) (cfgB cfgR : Json)
    (h1 : bump_version w.bp = Except.ok (bp1, bpVer))
    (h2 : bump_version w.rp = Except.ok (rp1, rpVer))
    (h3 : generate_new_uuids bp1 w.supply 0 = Except.ok (oB, nbu, bp2, c1))
    (h4 : generate_new_uuids rp1 w.supply c1 = Except.ok (oR, nru, rp2, c2))
    (h5 : update_rp_dependency rp2 nbu bpVer = Except.ok rp3)
    (h6 : packConfig bp2 = Except.ok cfgB)
    (h7 : packConfig rp3 = Except.ok cfgR) :
    runPipeline w evs = ⟨ExitStatus.completed, bp2, rp3, true, true, true, w.win32, evs⟩ := by
  unfold runPipeline
  simp only [hv, h1, h2, h3, h4, h5, h6, h7, if_true]

theorem runPipeline_completed_inv (w : World) (evs : List Ev)
    (h : (runPipeline w evs).status = ExitStatus.completed) :
    allValid (w.bpFiles ++ w.rpFiles) = true ∧
    ∃ bp1 bpVer rp1 rpVer oB nbu bp2 c1 oR nru rp2 c2 rp3,
      bump_version w.bp = Except.ok (bp1, bpVer) ∧
      bump_version w.rp = Except.ok (rp1, rpVer) ∧
      generate_new_uuids bp1 w.supply 0 = Except.ok (oB, nbu, bp2, c1) ∧
      generate_new_uuids rp1 w.supply c1 = Except.ok (oR, nru, rp2, c2) ∧
      update_rp_dependency rp2 nbu bpVer = Except.ok rp3 ∧
      (∃ cfgB, packConfig bp2 = Except.ok cfgB) ∧
      (∃ cfgR, packConfig rp3 = Except.ok cfgR) := by
  unfold runPipeline at h
  split at h
  case isTrue hv =>
    split at h <;> try (simp at h)
    rename_i bp1 bpVer hb1
    split at h <;> try (simp at h)
    rename_i rp1 rpVer hb2
    split at h <;> try (simp at h)
    rename_i oB nbu bp2 c1 hg1
    split at h <;> try (simp at h)
    rename_i oR nru rp2 c2 hg2
    split at h <;> try (simp at h)
    rename_i rp3 hu5
    split at h <;> try (simp at h)
    rename_i cfgB h6
    split at h <;> try (simp at h)
    rename_i cfgR h7
    exact ⟨hv, bp1, bpVer, rp1, rpVer, oB, nbu, bp2, c1, oR, nru, rp2, c2, rp3,
      hb1, hb2, hg1, hg2, hu5, ⟨cfgB, h6⟩, ⟨cfgR, h7⟩⟩
  case isFalse hv =>
    simp at h

/-- C1: after a full run of main that completes, every dependency entry of
the resource pack manifest on disk that carries a uuid field holds exactly
the behavior pack manifest post-rotation header uuid and post-bump header
version. -/
theorem c1_dependency_roundtrip (w : World) (dfs : List (String × Json))
    (h : (mainRun w).status = ExitStatus.completed)
    (hd : Json.obj dfs ∈ depsOf (mainRun w).rp)
    (hu : (lookupField dfs "uuid").isSome = true) :
    lookupField dfs "uuid" = headerUuid (mainRun w).bp ∧
    lookupField dfs "version" = headerVersion (mainRun w).bp := by
  rcases hk : kill_running_server w.win32 w.serverRunning w.choices with ⟨evs, out⟩
  cases out with
  | exited c =>
    have hm : mainRun w = ⟨ExitStatus.exited c, w.bp, w.rp, false, false, false, false, evs⟩ := by
      unfold mainRun
      rw [hk]
    rw [hm] at h
    simp at h
  | blocked =>
    have hm : mainRun w = ⟨ExitStatus.blocked, w.bp, w.rp, false, false, false, false, evs⟩ := by
      unfold mainRun
      rw [hk]
    rw [hm] at h
    simp at h
  | returned bb =>
    have hm : mainRun w = runPipeline w evs := by
      unfold mainRun
      rw [hk]
    rw [hm] at h hd ⊢
    obtain ⟨hv, bp1, bpVer, rp1, rpVer, oB, nbu, bp2, c1, oR, nru, rp2, c2, rp3,
      h1, h2, h3, h4, h5, hcfgB, hcfgR⟩ := runPipeline_completed_inv w evs h
    obtain ⟨cfgB, h6⟩ := hcfgB
    obtain ⟨cfgR, h7⟩ := hcfgR
    have hre := runPipeline_eq_completed w evs hv bp1 bpVer rp1 rpVer oB nbu bp2 c1
      oR nru rp2 c2 rp3 cfgB cfgR h1 h2 h3 h4 h5 h6 h7
    rw [hre] at hd ⊢
    obtain ⟨hnu, hhu, hhv, -, -⟩ := generate_new_uuids_inv bp1 w.supply 0 oB nbu bp2 c1 h3
    have hbv : headerVersion bp1 = some bpVer := bump_version_header w.bp bp1 bpVer h1
    have hspec := update_rp_dependency_spec rp2 nbu bpVer rp3 h5 dfs hd hu
    constructor
    · show lookupField dfs "uuid" = headerUuid bp2
      rw [hspec.1, hhu, hnu]
    · show lookupField dfs "version" = headerVersion bp2
      rw [hspec.2, hhv, hbv]

/-- Resource pack manifest with a uuid-carrying dependency on the sample
behavior pack, used to witness the round trip. -/
def rpC1 : Json :=
  Json.obj [("header", Json.obj [("uuid", Json.str "Y"),
      ("version", Json.arr [Json.num 2, Json.num 0, Json.num 0])]),
    ("dependencies", Json.arr [Json.obj [("uuid", Json.str "X"),
      ("version", Json.arr [Json.num 1, Json.num 0, Json.num 0])]])]

/-- World for the round-trip witness: no server, all files parse, sample
manifests, letter supply. -/
def wC1 : World := ⟨false, false, [], [], [], bpC5, rpC1, sC5⟩

/-- Dependency entry of the resource pack after the witnessed run. -/
def dfsC1 : List (String × Json) :=
  [("uuid", Json.str "a"), ("version", Json.arr [Json.num 1, Json.num 0, Json.num 1])]

/-- Witness for c1_dependency_roundtrip at the concrete world wC1. -/
theorem c1_dependency_roundtrip_witness :
    (mainRun wC1).status = ExitStatus.completed ∧
    Json.obj dfsC1 ∈ depsOf (mainRun wC1).rp ∧
    (lookupField dfsC1 "uuid").isSome = true ∧
    (lookupField dfsC1 "uuid" = headerUuid (mainRun wC1).bp ∧
     lookupField dfsC1 "version" = headerVersion (mainRun wC1).bp) := by
  have hmem : Json.obj dfsC1 ∈ depsOf (mainRun wC1).rp := by
    show Json.obj dfsC1 ∈ [Json.obj dfsC1]
    exact List.mem_singleton.mpr rfl
  exact ⟨rfl, hmem, rfl, c1_dependency_roundtrip wC1 dfsC1 rfl hmem rfl⟩
